import Mathlib

/-!
Verification development for the tiny_renderer repository: a CPU software
3D rasterizer.  The repository source under version control contains the
window/event-loop glue (`src/app.rs`); the rendering core (`Scene`, the
shader pipelines and the rasterizer) is referenced from there but its file
is not part of the tree, so the core is modelled faithfully from the
design document, as noted on each such definition.

All arithmetic is carried out over `ℚ`: the algorithms of the design are
stated over real-valued coordinates and the exact rational model makes
every comparison decidable.
-/

namespace TinyRenderer

/-! ## Event model (from `src/app.rs`) -/

/-- Key codes delivered by the windowing layer; only Escape matters to the
application, all other keys are collapsed into `other`. -/
inductive KeyCode where
  | escape
  | other (code : ℕ)
deriving DecidableEq

/-- State of a key in a keyboard event: pressed or released. -/
inductive KeyState where
  | pressed
  | released
deriving DecidableEq

/-- `state.is_released()` from the windowing library. -/
def KeyState.is_released : KeyState → Bool
  | .released => true
  | .pressed => false

/-- The `input` payload of a keyboard event: an optional key code and a
key state, mirroring `event.input.key_code` / `event.input.state`. -/
structure KeyInput where
  key_code : Option KeyCode
  state : KeyState
deriving DecidableEq

/-- A keyboard window event, mirroring the `KeyboardInput` payload. -/
structure KeyboardEvent where
  input : KeyInput
deriving DecidableEq

/-- Window events polled from the event channel: keyboard input or any
other event (resize, redraw, ...), collapsed into `otherEvent`. -/
inductive WindowEvent where
  | keyboardInput (e : KeyboardEvent)
  | otherEvent (code : ℕ)
deriving DecidableEq

/-- Embedding of `is_exit_event` (src/app.rs:23-32): true when the event
is a keyboard event whose key code is Escape and whose state is
released. -/
def is_exit_event (window_event : WindowEvent) : Bool :=
  match window_event with
  | .keyboardInput e =>
      if e.input.key_code = some KeyCode.escape ∧ e.input.state.is_released = true then
        true
      else
        false
  | .otherEvent _ => false

/-- Embedding of Rust's `Iterator::reduce`: `none` on the empty list,
otherwise the left fold of the binary operation over the tail starting
from the head. -/
def reduceOp (op : Bool → Bool → Bool) : List Bool → Option Bool
  | [] => none
  | x :: xs => some (xs.foldl op x)

/-- Embedding of the per-iteration exit poll of `run` (src/app.rs:118-127):
map `is_exit_event` over the polled events, `reduce` with `||`, and
default to `false` when the queue was empty. -/
def exitPoll (events : List WindowEvent) : Bool :=
  match reduceOp (fun was_exit_event is_exit => was_exit_event || is_exit) (events.map is_exit_event) with
  | some value => value
  | none => false

/-! ## Colors and per-frame buffers -/

/-- An RGB color sample.  Components are exact rationals in the model;
the concrete buffer stores RGB8. -/
structure Color where
  r : ℚ
  g : ℚ
  b : ℚ
deriving DecidableEq

/-- The clear color: exactly black. -/
def black : Color := ⟨0, 0, 0⟩

/-- Modelled from the spec: the far sentinel written into every depth
buffer entry by `clear()` ("+infinity / far-plane value"); a fixed
far-plane constant in the rational model. -/
def farDepth : ℚ := 1000000

/-- Modelled from the spec: the per-frame state of a Scene — a
width×height color buffer and a width×height depth buffer, addressed by
pixel coordinates. -/
@[ext]
structure Buffers where
  width : ℕ
  height : ℕ
  color : ℕ → ℕ → Color
  depth : ℕ → ℕ → ℚ

/-- Modelled from the spec: `clear()` resets the color buffer to black
and the depth buffer to the far value (Scene::clear, called at
src/app.rs:94). -/
def Buffers.clear (b : Buffers) : Buffers :=
  { b with color := fun _ _ => black, depth := fun _ _ => farDepth }

/-! ## Texture maps and sampling -/

/-- Modelled from the spec: a texture map is a width×height 2D grid of
RGB samples with a row-major accessor. -/
structure Texture where
  width : ℕ
  height : ℕ
  pixels : ℕ → ℕ → Color

/-- Modelled from the spec: wrap a UV coordinate into [0,1) before grid
lookup (the fractional part). -/
def wrap01 (q : ℚ) : ℚ := q - ⌊q⌋

/-- Modelled from the spec: convert one wrapped UV component into a texel
index along an axis with `n` texels. -/
def texelIndex (n : ℕ) (q : ℚ) : ℕ := (⌊wrap01 q * n⌋).toNat

/-- Modelled from the spec: nearest-neighbor texture sampling — wrap the
UV coordinates into [0,1), scale by the grid size, and look the texel
up. -/
def sampleColor (tex : Texture) (u v : ℚ) : Color :=
  tex.pixels (texelIndex tex.width u) (texelIndex tex.height v)

/-! ## Screen-space triangles, barycentric coverage and the rasterizer -/

/-- Per-vertex varyings produced by the vertex stage: texture coordinates
and a Gouraud lighting intensity. -/
structure Varyings where
  u : ℚ
  v : ℚ
  intensity : ℚ
deriving DecidableEq

/-- Modelled from the spec: a screen-space vertex handed to the
rasterizer — screen position (x, y), depth z, and interpolation-ready
varyings. -/
structure ScreenVertex where
  x : ℚ
  y : ℚ
  z : ℚ
  vary : Varyings
deriving DecidableEq

/-- The 2D screen position of a screen-space vertex. -/
def ScreenVertex.pos (v : ScreenVertex) : ℚ × ℚ := (v.x, v.y)

/-- Modelled from the spec: one screen-space triangle given to the
rasterizer. -/
structure Triangle where
  v0 : ScreenVertex
  v1 : ScreenVertex
  v2 : ScreenVertex
deriving DecidableEq

/-- The edge function: twice the signed area of the triangle (a, b, p);
the building block of barycentric coordinates. -/
def edgeFn (a b p : ℚ × ℚ) : ℚ :=
  (b.1 - a.1) * (p.2 - a.2) - (b.2 - a.2) * (p.1 - a.1)

/-- Twice the signed area of the triangle; zero iff the triangle is
degenerate in screen space. -/
def Triangle.denom (t : Triangle) : ℚ := edgeFn t.v0.pos t.v1.pos t.v2.pos

/-- Modelled from the spec: barycentric coordinates of point p relative
to the triangle, as ratios of edge-function values to the full signed
area. -/
def Triangle.bary (t : Triangle) (p : ℚ × ℚ) : ℚ × ℚ × ℚ :=
  (edgeFn t.v1.pos t.v2.pos p / t.denom,
   edgeFn t.v2.pos t.v0.pos p / t.denom,
   edgeFn t.v0.pos t.v1.pos p / t.denom)

/-- Modelled from the spec: a pixel is covered iff the triangle is
non-degenerate and all three barycentric weights are non-negative. -/
def Triangle.covered (t : Triangle) (p : ℚ × ℚ) : Bool :=
  decide (t.denom ≠ 0) &&
  decide (0 ≤ (t.bary p).1) &&
  decide (0 ≤ (t.bary p).2.1) &&
  decide (0 ≤ (t.bary p).2.2)

/-- Least x coordinate of the triangle's vertices. -/
def Triangle.minX (t : Triangle) : ℚ := min t.v0.x (min t.v1.x t.v2.x)

/-- Greatest x coordinate of the triangle's vertices. -/
def Triangle.maxX (t : Triangle) : ℚ := max t.v0.x (max t.v1.x t.v2.x)

/-- Least y coordinate of the triangle's vertices. -/
def Triangle.minY (t : Triangle) : ℚ := min t.v0.y (min t.v1.y t.v2.y)

/-- Greatest y coordinate of the triangle's vertices. -/
def Triangle.maxY (t : Triangle) : ℚ := max t.v0.y (max t.v1.y t.v2.y)

/-- Modelled from the spec: pixel (px, py) lies inside the triangle's 2D
bounding box. -/
def Triangle.inBBox (t : Triangle) (px py : ℕ) : Bool :=
  decide (t.minX ≤ (px : ℚ)) && decide ((px : ℚ) ≤ t.maxX) &&
  decide (t.minY ≤ (py : ℚ)) && decide ((py : ℚ) ≤ t.maxY)

/-- Pixel (px, py) lies inside a w×h buffer. -/
def inBounds (w h px py : ℕ) : Bool := decide (px < w) && decide (py < h)

/-- Modelled from the spec: the triangle lies fully behind the camera
(all three vertices at non-positive depth); such triangles are culled. -/
def Triangle.behind (t : Triangle) : Bool :=
  decide (t.v0.z ≤ 0) && decide (t.v1.z ≤ 0) && decide (t.v2.z ≤ 0)

/-- Modelled from the spec: the triangle's bounding box, clipped to the
buffer bounds, contains no pixel — the triangle is fully off-screen. -/
def offscreen (w h : ℕ) (t : Triangle) : Bool :=
  (decide (t.maxX < 0) || decide ((w : ℚ) - 1 < t.minX)) ||
  (decide (t.maxY < 0) || decide ((h : ℚ) - 1 < t.minY))

/-- Modelled from the spec: perspective-correct interpolation of one
attribute — divide the attribute by the vertex depth, interpolate with
the screen barycentric weights, and divide the result by the
interpolated reciprocal depth. -/
def interpPC (l0 l1 l2 a0 a1 a2 z0 z1 z2 : ℚ) : ℚ :=
  (l0 * a0 / z0 + l1 * a1 / z1 + l2 * a2 / z2) / (l0 / z0 + l1 / z1 + l2 / z2)

/-- Modelled from the spec: screen-linear interpolation of depth at a
pixel with the barycentric weights. -/
def Triangle.depthAt (t : Triangle) (p : ℚ × ℚ) : ℚ :=
  (t.bary p).1 * t.v0.z + (t.bary p).2.1 * t.v1.z + (t.bary p).2.2 * t.v2.z

/-- Modelled from the spec: perspective-correct interpolation of all
varyings at a pixel. -/
def Triangle.varyAt (t : Triangle) (p : ℚ × ℚ) : Varyings :=
  { u := interpPC (t.bary p).1 (t.bary p).2.1 (t.bary p).2.2
           t.v0.vary.u t.v1.vary.u t.v2.vary.u t.v0.z t.v1.z t.v2.z,
    v := interpPC (t.bary p).1 (t.bary p).2.1 (t.bary p).2.2
           t.v0.vary.v t.v1.vary.v t.v2.vary.v t.v0.z t.v1.z t.v2.z,
    intensity := interpPC (t.bary p).1 (t.bary p).2.1 (t.bary p).2.2
           t.v0.vary.intensity t.v1.vary.intensity t.v2.vary.intensity
           t.v0.z t.v1.z t.v2.z }

/-- Modelled from the spec: the rasterizer writes a fragment at pixel
(px, py) iff the pixel is inside the buffer, inside the triangle's
bounding box, the triangle is not culled, the pixel is covered, and the
interpolated depth is strictly nearer than the stored depth. -/
def fragWrite (b : Buffers) (t : Triangle) (px py : ℕ) : Bool :=
  inBounds b.width b.height px py &&
  t.inBBox px py &&
  !t.behind &&
  t.covered ((px : ℚ), (py : ℚ)) &&
  decide (t.depthAt ((px : ℚ), (py : ℚ)) < b.depth px py)

/-- Modelled from the spec: rasterize one screen-space triangle into the
buffers — for every pixel that passes coverage and the depth test, write
the fragment stage's color and the interpolated depth; leave every other
pixel untouched. -/
def renderTri (frag : Varyings → Color) (b : Buffers) (t : Triangle) : Buffers :=
  { b with
    color := fun px py =>
      if fragWrite b t px py = true then frag (t.varyAt ((px : ℚ), (py : ℚ)))
      else b.color px py,
    depth := fun px py =>
      if fragWrite b t px py = true then t.depthAt ((px : ℚ), (py : ℚ))
      else b.depth px py }

/-! ## Shader pipeline (Gouraud variant) -/

/-- 3D dot product on rational vectors. -/
def dot3 (a b : ℚ × ℚ × ℚ) : ℚ := a.1 * b.1 + a.2.1 * b.2.1 + a.2.2 * b.2.2

/-- Clamp a rational to the interval [0, 1]. -/
def clamp01 (q : ℚ) : ℚ := max 0 (min 1 q)

/-- Modelled from the spec: the Gouraud vertex stage's per-vertex
lighting intensity — the dot product of the vertex normal and the light
direction, clamped to [0,1]. -/
def gouraudVertexIntensity (normal light : ℚ × ℚ × ℚ) : ℚ :=
  clamp01 (dot3 normal light)

/-- Modelled from the spec: the Gouraud fragment stage — multiply the
interpolated intensity into the sampled diffuse color. -/
def gouraudFragment (diffuse : Texture) (vary : Varyings) : Color :=
  let s := sampleColor diffuse vary.u vary.v
  ⟨vary.intensity * s.r, vary.intensity * s.g, vary.intensity * s.b⟩

/-! ## Scene construction -/

/-- Modelled from the spec: a parsed mesh — vertex positions plus
polygons as triples of indices. -/
structure Mesh where
  positions : List (ℚ × ℚ × ℚ)
  polygons : List (ℕ × ℕ × ℕ)

/-- The shader pipeline variant, selected once at Scene construction
(named by `shader_pipeline_name` at src/app.rs:73). -/
inductive PipelineKind where
  | flatUnlit
  | gouraud
  | normalObject
  | normalTangent
deriving DecidableEq

/-- Modelled from the spec: the texture maps handed to Scene
construction, each possibly absent. -/
structure TextureSet where
  diffuse : Option Texture
  normalObj : Option Texture
  normalTan : Option Texture
  specular : Option Texture

/-- Modelled from the spec: construction errors — a zero-sized buffer
was requested, or a texture map required by the selected pipeline
variant is absent. -/
inductive ConstructionError where
  | zeroSizedBuffer
  | missingTextureMap
deriving DecidableEq

/-- Modelled from the spec: whether every texture map required by the
pipeline variant is present.  Every variant samples the diffuse map; the
normal-mapping variants additionally require their normal map (the
specular term is optional). -/
def requiredMapsPresent : PipelineKind → TextureSet → Bool
  | .flatUnlit, ts => ts.diffuse.isSome
  | .gouraud, ts => ts.diffuse.isSome
  | .normalObject, ts => ts.diffuse.isSome && ts.normalObj.isSome
  | .normalTangent, ts => ts.diffuse.isSome && ts.normalTan.isSome

/-- Modelled from the spec: a constructed Scene — resolution, borrowed
mesh and textures, the bound pipeline variant, the owned per-frame
buffers, and the light direction. -/
structure Scene where
  width : ℕ
  height : ℕ
  mesh : Mesh
  textures : TextureSet
  pipeline : PipelineKind
  buffers : Buffers
  lightDir : ℚ × ℚ × ℚ

/-- Modelled from the spec: `Scene::new` (called at src/app.rs:65-74) —
fails with a construction error when width or height is zero or a
required texture map is absent; otherwise produces a Scene whose buffers
have the requested resolution. -/
def Scene.new (w h : ℕ) (mesh : Mesh) (ts : TextureSet) (kind : PipelineKind) :
    Except ConstructionError Scene :=
  if w = 0 ∨ h = 0 then
    .error .zeroSizedBuffer
  else if requiredMapsPresent kind ts = true then
    .ok { width := w, height := h, mesh := mesh, textures := ts, pipeline := kind,
          buffers := Buffers.clear ⟨w, h, fun _ _ => black, fun _ _ => farDepth⟩,
          lightDir := (0, 0, 1) }
  else
    .error .missingTextureMap

/-! ## Perspective-correct reference values

The analytic reference for perspective-correct interpolation: vertex i of
the screen triangle is the projection of the camera-space point
(xᵢ·zᵢ, yᵢ·zᵢ, zᵢ); a pixel p inside the triangle is the projection of a
unique point of the 3D triangle, and the analytically correct attribute
value at p is the linear interpolation of the vertex attributes at that
3D point. -/

/-- Modelled from the spec: the interpolated reciprocal depth at p — the
screen barycentric weights divided by the vertex depths, summed. -/
def Triangle.rcpDepthSum (t : Triangle) (p : ℚ × ℚ) : ℚ :=
  (t.bary p).1 / t.v0.z + (t.bary p).2.1 / t.v1.z + (t.bary p).2.2 / t.v2.z

/-- Modelled from the spec: the camera-space barycentric weights of the
3D point projecting to p — screen weights divided by vertex depth and
renormalized by the interpolated reciprocal depth. -/
def Triangle.cameraBary (t : Triangle) (p : ℚ × ℚ) : ℚ × ℚ × ℚ :=
  ((t.bary p).1 / t.v0.z / t.rcpDepthSum p,
   (t.bary p).2.1 / t.v1.z / t.rcpDepthSum p,
   (t.bary p).2.2 / t.v2.z / t.rcpDepthSum p)

/-- Modelled from the spec: the camera-space point of the 3D triangle
whose camera barycentrics are `cameraBary t p`; vertex i sits at
(xᵢ·zᵢ, yᵢ·zᵢ, zᵢ). -/
def Triangle.cameraPoint (t : Triangle) (p : ℚ × ℚ) : ℚ × ℚ × ℚ :=
  ((t.cameraBary p).1 * (t.v0.x * t.v0.z) + (t.cameraBary p).2.1 * (t.v1.x * t.v1.z) +
     (t.cameraBary p).2.2 * (t.v2.x * t.v2.z),
   (t.cameraBary p).1 * (t.v0.y * t.v0.z) + (t.cameraBary p).2.1 * (t.v1.y * t.v1.z) +
     (t.cameraBary p).2.2 * (t.v2.y * t.v2.z),
   (t.cameraBary p).1 * t.v0.z + (t.cameraBary p).2.1 * t.v1.z +
     (t.cameraBary p).2.2 * t.v2.z)

/-- Modelled from the spec: the analytically perspective-divided u value
at p — the linear interpolation of the vertex u attributes with the
camera-space weights. -/
def Triangle.analyticU (t : Triangle) (p : ℚ × ℚ) : ℚ :=
  (t.cameraBary p).1 * t.v0.vary.u + (t.cameraBary p).2.1 * t.v1.vary.u +
    (t.cameraBary p).2.2 * t.v2.vary.u

/-! ## Concrete fixtures: a quad split along its diagonal -/

/-- Lower-left triangle of a 2×2 screen quad; its diagonal edge runs
from (2,0) to (0,2). -/
def quadTriA : Triangle :=
  ⟨⟨0, 0, 1, ⟨0, 0, 0⟩⟩, ⟨2, 0, 1, ⟨0, 0, 0⟩⟩, ⟨0, 2, 1, ⟨0, 0, 0⟩⟩⟩

/-- Upper-right triangle of the same quad, sharing the diagonal edge
from (2,0) to (0,2) with `quadTriA`. -/
def quadTriB : Triangle :=
  ⟨⟨2, 0, 1, ⟨0, 0, 0⟩⟩, ⟨0, 2, 1, ⟨0, 0, 0⟩⟩, ⟨2, 2, 1, ⟨0, 0, 0⟩⟩⟩

/-! ## Helper lemmas -/

lemma is_released_iff (s : KeyState) : s.is_released = true ↔ s = KeyState.released := by
  cases s <;> simp [KeyState.is_released]

lemma foldl_or (xs : List Bool) (a : Bool) :
    xs.foldl (fun x y => x || y) a = (a || xs.any id) := by
  induction xs generalizing a with
  | nil => simp
  | cons x xs ih => simp [List.foldl_cons, ih, Bool.or_assoc]

lemma any_map_id (f : WindowEvent → Bool) (es : List WindowEvent) :
    (es.map f).any id = es.any f := by
  induction es with
  | nil => rfl
  | cons x xs ih => simp [ih]

lemma exitPoll_eq_any (events : List WindowEvent) :
    exitPoll events = events.any is_exit_event := by
  cases events with
  | nil => rfl
  | cons e es =>
      have h1 : exitPoll (e :: es) =
          (es.map is_exit_event).foldl (fun x y => x || y) (is_exit_event e) := rfl
      rw [h1, foldl_or, any_map_id, List.any_cons]

/-! ## Claim theorems -/

/-- Claim C10: `is_exit_event` is true exactly on keyboard events whose key
code is Escape and whose state is released; the per-iteration exit poll
of `run` is true exactly when some polled event is such an event, and an
empty event queue never causes exit. -/
theorem exit_event_iff_escape_release :
    (∀ we : WindowEvent, is_exit_event we = true ↔
      ∃ e : KeyboardEvent, we = WindowEvent.keyboardInput e ∧
        e.input.key_code = some KeyCode.escape ∧ e.input.state = KeyState.released) ∧
    (∀ events : List WindowEvent,
      (exitPoll events = true ↔ ∃ we ∈ events, is_exit_event we = true)) ∧
    exitPoll [] = false := by
  refine ⟨?_, ?_, rfl⟩
  · intro we
    cases we with
    | keyboardInput e =>
        by_cases h : e.input.key_code = some KeyCode.escape ∧ e.input.state.is_released = true
        · simp only [is_exit_event, if_pos h, true_iff]
          exact ⟨e, rfl, h.1, (is_released_iff e.input.state).mp h.2⟩
        · simp only [is_exit_event, if_neg h, Bool.false_eq_true, false_iff]
          rintro ⟨e', he, hk, hs⟩
          cases he
          exact h ⟨hk, (is_released_iff _).mpr hs⟩
    | otherEvent c =>
        simp only [is_exit_event, Bool.false_eq_true, false_iff]
        rintro ⟨e', he, _, _⟩
        cases he
  · intro events
    rw [exitPoll_eq_any, List.any_eq_true]

/-- Claim C3: after `clear()`, every pixel of the color buffer is exactly
black and every depth entry is the far sentinel, regardless of the
buffers' prior contents; the resolution is unchanged. -/
theorem clear_resets_buffers (b : Buffers) (px py : ℕ) :
    b.clear.color px py = black ∧ b.clear.depth px py = farDepth ∧
    b.clear.width = b.width ∧ b.clear.height = b.height :=
  ⟨rfl, rfl, rfl, rfl⟩

/-- Claim C1: `Scene::new` reports a construction error — producing no Scene —
whenever width or height is zero or a texture map required by the
selected pipeline variant is absent, and otherwise returns a Scene with
buffers of the requested resolution and the requested pipeline bound. -/
theorem scene_new_validates (w h : ℕ) (mesh : Mesh) (ts : TextureSet) (kind : PipelineKind) :
    ((w = 0 ∨ h = 0 ∨ requiredMapsPresent kind ts = false) →
      ∃ e, Scene.new w h mesh ts kind = Except.error e) ∧
    (w ≠ 0 → h ≠ 0 → requiredMapsPresent kind ts = true →
      ∃ s, Scene.new w h mesh ts kind = Except.ok s ∧ s.width = w ∧ s.height = h ∧
        s.pipeline = kind ∧ s.buffers.width = w ∧ s.buffers.height = h) := by
  constructor
  · intro hbad
    rcases hbad with h0 | h0 | h0
    · exact ⟨ConstructionError.zeroSizedBuffer, by simp [Scene.new, h0]⟩
    · exact ⟨ConstructionError.zeroSizedBuffer, by simp [Scene.new, h0]⟩
    · by_cases hz : w = 0 ∨ h = 0
      · exact ⟨ConstructionError.zeroSizedBuffer, by simp [Scene.new, hz]⟩
      · exact ⟨ConstructionError.missingTextureMap, by simp [Scene.new, hz, h0]⟩
  · intro hw hh hmaps
    refine ⟨{ width := w, height := h, mesh := mesh, textures := ts, pipeline := kind,
              buffers := Buffers.clear ⟨w, h, fun _ _ => black, fun _ _ => farDepth⟩,
              lightDir := (0, 0, 1) }, ?_, rfl, rfl, rfl, rfl, rfl⟩
    simp [Scene.new, hw, hh, hmaps]

/-- Witness for C1: a 2×2 scene with a diffuse map and the flat pipeline
constructs successfully; a 0-width request fails. -/
theorem scene_new_validates_witness :
    (∃ e, Scene.new 0 2 ⟨[], []⟩
        ⟨some ⟨1, 1, fun _ _ => black⟩, none, none, none⟩ PipelineKind.flatUnlit =
        Except.error e) ∧
    (∃ s, Scene.new 2 2 ⟨[], []⟩
        ⟨some ⟨1, 1, fun _ _ => black⟩, none, none, none⟩ PipelineKind.flatUnlit =
        Except.ok s ∧ s.width = 2 ∧ s.height = 2 ∧
        s.pipeline = PipelineKind.flatUnlit ∧ s.buffers.width = 2 ∧ s.buffers.height = 2) :=
  ⟨(scene_new_validates 0 2 ⟨[], []⟩ _ _).1 (Or.inl rfl),
   (scene_new_validates 2 2 ⟨[], []⟩ _ _).2 (by decide) (by decide) rfl⟩

lemma renderTri_depth_eq (f : Varyings → Color) (b : Buffers) (t : Triangle) (px py : ℕ) :
    (renderTri f b t).depth px py =
      if fragWrite b t px py = true then t.depthAt ((px : ℚ), (py : ℚ))
      else b.depth px py := rfl

lemma fragWrite_renderTri_self (f : Varyings → Color) (b : Buffers) (t : Triangle)
    (px py : ℕ) : fragWrite (renderTri f b t) t px py = false := by
  have hunfold : fragWrite (renderTri f b t) t px py =
      (inBounds b.width b.height px py &&
       t.inBBox px py &&
       !t.behind &&
       t.covered ((px : ℚ), (py : ℚ)) &&
       decide (t.depthAt ((px : ℚ), (py : ℚ)) < (renderTri f b t).depth px py)) := rfl
  by_cases h : fragWrite b t px py = true
  · have hd : (renderTri f b t).depth px py = t.depthAt ((px : ℚ), (py : ℚ)) := by
      rw [renderTri_depth_eq, if_pos h]
    rw [hunfold, hd]
    simp
  · have hd : (renderTri f b t).depth px py = b.depth px py := by
      rw [renderTri_depth_eq, if_neg h]
    rw [hunfold, hd]
    exact Bool.not_eq_true _ ▸ h

/-- Claim C2: the rasterizer writes a pixel only when the interpolated depth is
strictly nearer than the stored depth, and rendering the same triangle a
second time without an intervening clear leaves both buffers exactly as
they were after the first rendering. -/
theorem rasterizer_depth_test_idempotent (f : Varyings → Color) (b : Buffers) (t : Triangle) :
    (∀ px py : ℕ, ¬ t.depthAt ((px : ℚ), (py : ℚ)) < b.depth px py →
      (renderTri f b t).color px py = b.color px py ∧
      (renderTri f b t).depth px py = b.depth px py) ∧
    renderTri f (renderTri f b t) t = renderTri f b t := by
  constructor
  · intro px py hlt
    have hf : fragWrite b t px py = false := by
      simp [fragWrite, hlt]
    constructor
    · show (if fragWrite b t px py = true then _ else b.color px py) = b.color px py
      rw [hf]
      simp
    · rw [renderTri_depth_eq, hf]
      simp
  · have hfw := fragWrite_renderTri_self f b t
    ext px py
    · rfl
    · rfl
    · show (if fragWrite (renderTri f b t) t px py = true then _
            else (renderTri f b t).color px py) = (renderTri f b t).color px py
      rw [hfw px py]
      simp
    · rw [renderTri_depth_eq, hfw px py]
      simp

/-- Witness for C2: at a pixel whose stored depth already equals the
triangle's interpolated depth, rendering changes nothing. -/
theorem rasterizer_depth_test_idempotent_witness :
    (renderTri (fun _ => ⟨1, 0, 0⟩)
        ⟨4, 4, fun _ _ => black, fun _ _ => 1⟩
        ⟨⟨0, 0, 1, ⟨0, 0, 0⟩⟩, ⟨2, 0, 1, ⟨0, 0, 0⟩⟩, ⟨0, 2, 1, ⟨0, 0, 0⟩⟩⟩).color 0 0 =
      (⟨4, 4, fun _ _ => black, fun _ _ => 1⟩ : Buffers).color 0 0 ∧
    (renderTri (fun _ => ⟨1, 0, 0⟩)
        ⟨4, 4, fun _ _ => black, fun _ _ => 1⟩
        ⟨⟨0, 0, 1, ⟨0, 0, 0⟩⟩, ⟨2, 0, 1, ⟨0, 2, 0⟩⟩, ⟨0, 2, 1, ⟨0, 0, 0⟩⟩⟩).depth 0 0 =
      (⟨4, 4, fun _ _ => black, fun _ _ => 1⟩ : Buffers).depth 0 0 := by
  refine ⟨((rasterizer_depth_test_idempotent (fun _ => ⟨1, 0, 0⟩)
      ⟨4, 4, fun _ _ => black, fun _ _ => 1⟩
      ⟨⟨0, 0, 1, ⟨0, 0, 0⟩⟩, ⟨2, 0, 1, ⟨0, 0, 0⟩⟩, ⟨0, 2, 1, ⟨0, 0, 0⟩⟩⟩).1 0 0 (by
        norm_num [Triangle.depthAt, Triangle.bary, Triangle.denom, edgeFn,
          ScreenVertex.pos])).1,
    ((rasterizer_depth_test_idempotent (fun _ => ⟨1, 0, 0⟩)
      ⟨4, 4, fun _ _ => black, fun _ _ => 1⟩
      ⟨⟨0, 0, 1, ⟨0, 0, 0⟩⟩, ⟨2, 0, 1, ⟨0, 2, 0⟩⟩, ⟨0, 2, 1, ⟨0, 0, 0⟩⟩⟩).1 0 0 (by
        norm_num [Triangle.depthAt, Triangle.bary, Triangle.denom, edgeFn,
          ScreenVertex.pos])).2⟩

/-- Claim C4: a pixel is written by the rasterizer only if it lies inside the
buffer bounds and inside the triangle's 2D bounding box and is covered;
and a pixel is covered exactly when the triangle is non-degenerate and
all three of its barycentric weights are non-negative. -/
theorem rasterizer_coverage (f : Varyings → Color) (b : Buffers) (t : Triangle) :
    (∀ px py : ℕ,
      ((renderTri f b t).color px py ≠ b.color px py ∨
       (renderTri f b t).depth px py ≠ b.depth px py) →
      px < b.width ∧ py < b.height ∧ t.inBBox px py = true ∧
      t.covered ((px : ℚ), (py : ℚ)) = true) ∧
    (∀ p : ℚ × ℚ, t.covered p = true ↔
      (t.denom ≠ 0 ∧ 0 ≤ (t.bary p).1 ∧ 0 ≤ (t.bary p).2.1 ∧ 0 ≤ (t.bary p).2.2)) := by
  constructor
  · intro px py hch
    by_cases hf : fragWrite b t px py = true
    · have := hf
      simp only [fragWrite, inBounds, Bool.and_eq_true, decide_eq_true_iff] at this
      refine ⟨?_, ?_, ?_, ?_⟩ <;> tauto
    · exfalso
      have hc : (renderTri f b t).color px py = b.color px py := by
        show (if fragWrite b t px py = true then _ else b.color px py) = b.color px py
        rw [if_neg hf]
      have hd : (renderTri f b t).depth px py = b.depth px py := by
        rw [renderTri_depth_eq, if_neg hf]
      rcases hch with h | h
      · exact h hc
      · exact h hd
  · intro p
    simp [Triangle.covered, Bool.and_eq_true, decide_eq_true_iff, and_assoc]

/-- Witness for C4: a concrete write — pixel (0,0) of a 4×4 buffer is
changed by a covered triangle, and indeed lies inside bounds, bounding
box and coverage. -/
theorem rasterizer_coverage_witness :
    (0 : ℕ) < (4 : ℕ) ∧ (0 : ℕ) < (4 : ℕ) ∧
    Triangle.inBBox ⟨⟨0, 0, 1, ⟨0, 0, 0⟩⟩, ⟨2, 0, 1, ⟨0, 0, 0⟩⟩, ⟨0, 2, 1, ⟨0, 0, 0⟩⟩⟩ 0 0 = true ∧
    Triangle.covered ⟨⟨0, 0, 1, ⟨0, 0, 0⟩⟩, ⟨2, 0, 1, ⟨0, 0, 0⟩⟩, ⟨0, 2, 1, ⟨0, 0, 0⟩⟩⟩
      ((0 : ℚ), (0 : ℚ)) = true :=
  (rasterizer_coverage (fun _ => ⟨1, 0, 0⟩)
    ⟨4, 4, fun _ _ => black, fun _ _ => farDepth⟩
    ⟨⟨0, 0, 1, ⟨0, 0, 0⟩⟩, ⟨2, 0, 1, ⟨0, 0, 0⟩⟩, ⟨0, 2, 1, ⟨0, 0, 0⟩⟩⟩).1 0 0
    (Or.inr (by
      norm_num [renderTri, fragWrite, inBounds, Triangle.inBBox, Triangle.behind,
        Triangle.covered, Triangle.bary, Triangle.denom, Triangle.depthAt, edgeFn,
        ScreenVertex.pos, Triangle.minX, Triangle.maxX, Triangle.minY, Triangle.maxY,
        farDepth]))

lemma covered_false_of_denom_zero (t : Triangle) (p : ℚ × ℚ) (h : t.denom = 0) :
    t.covered p = false := by
  simp [Triangle.covered, h]

lemma inBBox_false_of_offscreen (w hgt px py : ℕ) (t : Triangle)
    (hoff : offscreen w hgt t = true) (hb : inBounds w hgt px py = true) :
    t.inBBox px py = false := by
  simp only [inBounds, Bool.and_eq_true, decide_eq_true_iff] at hb
  simp only [offscreen, Bool.or_eq_true, decide_eq_true_iff] at hoff
  rw [Bool.eq_false_iff]
  intro hbb
  simp only [Triangle.inBBox, Bool.and_eq_true, decide_eq_true_iff] at hbb
  obtain ⟨⟨⟨hx1, hx2⟩, hy1⟩, hy2⟩ := hbb
  rcases hoff with (hc | hc) | (hc | hc)
  · have hpx : (0 : ℚ) ≤ (px : ℚ) := by positivity
    linarith
  · have hle : px + 1 ≤ w := hb.1
    have hpx : (px : ℚ) + 1 ≤ (w : ℚ) := by exact_mod_cast hle
    linarith
  · have hpy : (0 : ℚ) ≤ (py : ℚ) := by positivity
    linarith
  · have hle : py + 1 ≤ hgt := hb.2
    have hpy : (py : ℚ) + 1 ≤ (hgt : ℚ) := by exact_mod_cast hle
    linarith

/-- Claim C6: every degenerate triangle — zero screen-space area, fully behind
the camera, or fully off-screen — is silently skipped by the rasterizer:
it leaves the buffers exactly unchanged. -/
theorem degenerate_triangles_skipped (f : Varyings → Color) (b : Buffers) (t : Triangle)
    (hdeg : t.denom = 0 ∨ t.behind = true ∨ offscreen b.width b.height t = true) :
    renderTri f b t = b := by
  have hfw : ∀ px py : ℕ, fragWrite b t px py = false := by
    intro px py
    rcases hdeg with hc | hc | hc
    · simp [fragWrite, covered_false_of_denom_zero t _ hc]
    · simp [fragWrite, hc]
    · by_cases hbnd : inBounds b.width b.height px py = true
      · simp [fragWrite, inBBox_false_of_offscreen b.width b.height px py t hc hbnd]
      · simp [fragWrite, Bool.eq_false_iff.mpr hbnd]
  ext px py
  · rfl
  · rfl
  · show (if fragWrite b t px py = true then _ else b.color px py) = b.color px py
    rw [hfw px py]
    simp
  · rw [renderTri_depth_eq, hfw px py]
    simp

/-- Witness for C6: a zero-area triangle (three equal vertices) leaves a
4×4 buffer untouched. -/
theorem degenerate_triangles_skipped_witness :
    renderTri (fun _ => black) ⟨4, 4, fun _ _ => black, fun _ _ => farDepth⟩
      ⟨⟨1, 1, 1, ⟨0, 0, 0⟩⟩, ⟨1, 1, 1, ⟨0, 0, 0⟩⟩, ⟨1, 1, 1, ⟨0, 0, 0⟩⟩⟩ =
      ⟨4, 4, fun _ _ => black, fun _ _ => farDepth⟩ :=
  degenerate_triangles_skipped (fun _ => black)
    ⟨4, 4, fun _ _ => black, fun _ _ => farDepth⟩
    ⟨⟨1, 1, 1, ⟨0, 0, 0⟩⟩, ⟨1, 1, 1, ⟨0, 0, 0⟩⟩, ⟨1, 1, 1, ⟨0, 0, 0⟩⟩⟩
    (Or.inl (by norm_num [Triangle.denom, edgeFn, ScreenVertex.pos]))

/-- Claim C7: under the Gouraud pipeline the per-vertex intensity is the
clamped dot product of normal and light direction, and when the light is
perpendicular to all three vertex normals every pixel the rasterizer
touches comes out black, regardless of the diffuse texture. -/
theorem gouraud_perpendicular_light_black (tex : Texture) (b : Buffers) (t : Triangle)
    (light n0 n1 n2 : ℚ × ℚ × ℚ)
    (h0 : t.v0.vary.intensity = gouraudVertexIntensity n0 light)
    (h1 : t.v1.vary.intensity = gouraudVertexIntensity n1 light)
    (h2 : t.v2.vary.intensity = gouraudVertexIntensity n2 light)
    (hd0 : dot3 n0 light = 0) (hd1 : dot3 n1 light = 0) (hd2 : dot3 n2 light = 0) :
    (∀ n l, gouraudVertexIntensity n l = clamp01 (dot3 n l)) ∧
    ∀ px py : ℕ,
      (renderTri (gouraudFragment tex) b t).color px py = b.color px py ∨
      (renderTri (gouraudFragment tex) b t).color px py = black := by
  have hi0 : t.v0.vary.intensity = 0 := by
    rw [h0, gouraudVertexIntensity, hd0]
    norm_num [clamp01]
  have hi1 : t.v1.vary.intensity = 0 := by
    rw [h1, gouraudVertexIntensity, hd1]
    norm_num [clamp01]
  have hi2 : t.v2.vary.intensity = 0 := by
    rw [h2, gouraudVertexIntensity, hd2]
    norm_num [clamp01]
  refine ⟨fun _ _ => rfl, ?_⟩
  intro px py
  by_cases hf : fragWrite b t px py = true
  · right
    show (if fragWrite b t px py = true
          then gouraudFragment tex (t.varyAt ((px : ℚ), (py : ℚ)))
          else b.color px py) = black
    rw [if_pos hf]
    have hint : (t.varyAt ((px : ℚ), (py : ℚ))).intensity = 0 := by
      simp [Triangle.varyAt, interpPC, hi0, hi1, hi2]
    simp [gouraudFragment, hint, black]
  · left
    show (if fragWrite b t px py = true
          then gouraudFragment tex (t.varyAt ((px : ℚ), (py : ℚ)))
          else b.color px py) = b.color px py
    rw [if_neg hf]

/-- Witness for C7: normals along x, light along z — all three dot
products vanish and every rendered pixel of the triangle is black. -/
theorem gouraud_perpendicular_light_black_witness :
    (∀ n l : ℚ × ℚ × ℚ, gouraudVertexIntensity n l = clamp01 (dot3 n l)) ∧
    ∀ px py : ℕ,
      (renderTri (gouraudFragment ⟨1, 1, fun _ _ => ⟨1, 1, 1⟩⟩)
        ⟨4, 4, fun _ _ => black, fun _ _ => farDepth⟩
        ⟨⟨0, 0, 1, ⟨0, 0, 0⟩⟩, ⟨2, 0, 1, ⟨0, 0, 0⟩⟩, ⟨0, 2, 1, ⟨0, 0, 0⟩⟩⟩).color px py =
        (⟨4, 4, fun _ _ => black, fun _ _ => farDepth⟩ : Buffers).color px py ∨
      (renderTri (gouraudFragment ⟨1, 1, fun _ _ => ⟨1, 1, 1⟩⟩)
        ⟨4, 4, fun _ _ => black, fun _ _ => farDepth⟩
        ⟨⟨0, 0, 1, ⟨0, 0, 0⟩⟩, ⟨2, 0, 1, ⟨0, 0, 0⟩⟩, ⟨0, 2, 1, ⟨0, 0, 0⟩⟩⟩).color px py =
        black :=
  gouraud_perpendicular_light_black ⟨1, 1, fun _ _ => ⟨1, 1, 1⟩⟩
    ⟨4, 4, fun _ _ => black, fun _ _ => farDepth⟩
    ⟨⟨0, 0, 1, ⟨0, 0, 0⟩⟩, ⟨2, 0, 1, ⟨0, 0, 0⟩⟩, ⟨0, 2, 1, ⟨0, 0, 0⟩⟩⟩
    (0, 0, 1) (1, 0, 0) (1, 0, 0) (1, 0, 0)
    (by norm_num [gouraudVertexIntensity, clamp01, dot3])
    (by norm_num [gouraudVertexIntensity, clamp01, dot3])
    (by norm_num [gouraudVertexIntensity, clamp01, dot3])
    (by norm_num [dot3]) (by norm_num [dot3]) (by norm_num [dot3])

/-- Claim C9: UV coordinates are wrapped into [0,1) before grid lookup, and
the resulting texel indices never leave the texture's width×height
bounds. -/
theorem texture_sampling_in_bounds (tex : Texture) (u v : ℚ)
    (hw : 0 < tex.width) (hh : 0 < tex.height) :
    (0 ≤ wrap01 u ∧ wrap01 u < 1) ∧ (0 ≤ wrap01 v ∧ wrap01 v < 1) ∧
    texelIndex tex.width u < tex.width ∧ texelIndex tex.height v < tex.height ∧
    sampleColor tex u v =
      tex.pixels (texelIndex tex.width u) (texelIndex tex.height v) := by
  have hw01 : ∀ q : ℚ, wrap01 q = Int.fract q := fun _ => rfl
  have hfract : ∀ q : ℚ, 0 ≤ wrap01 q ∧ wrap01 q < 1 := by
    intro q
    rw [hw01]
    exact ⟨Int.fract_nonneg q, Int.fract_lt_one q⟩
  have hidx : ∀ (n : ℕ) (q : ℚ), 0 < n → texelIndex n q < n := by
    intro n q hn
    have hn' : (0 : ℚ) < (n : ℚ) := by exact_mod_cast hn
    have h1 : wrap01 q * (n : ℚ) < (n : ℚ) := by
      nlinarith [(hfract q).1, (hfract q).2]
    have h2 : ⌊wrap01 q * (n : ℚ)⌋ < (n : ℤ) := by
      apply Int.floor_lt.mpr
      push_cast
      exact h1
    show (⌊wrap01 q * (n : ℚ)⌋).toNat < n
    omega
  exact ⟨hfract u, hfract v, hidx _ _ hw, hidx _ _ hh, rfl⟩

/-- Witness for C9: sampling a 2×2 texture at out-of-range UVs (5/2 and
-1/3) stays inside the grid. -/
theorem texture_sampling_in_bounds_witness :
    (0 ≤ wrap01 (5 / 2 : ℚ) ∧ wrap01 (5 / 2 : ℚ) < 1) ∧
    (0 ≤ wrap01 (-1 / 3 : ℚ) ∧ wrap01 (-1 / 3 : ℚ) < 1) ∧
    texelIndex 2 (5 / 2 : ℚ) < 2 ∧ texelIndex 2 (-1 / 3 : ℚ) < 2 ∧
    sampleColor ⟨2, 2, fun _ _ => black⟩ (5 / 2) (-1 / 3) =
      Texture.pixels ⟨2, 2, fun _ _ => black⟩ (texelIndex 2 (5 / 2)) (texelIndex 2 (-1 / 3)) :=
  texture_sampling_in_bounds ⟨2, 2, fun _ _ => black⟩ (5 / 2) (-1 / 3)
    (by decide) (by decide)

lemma bary_lerp_edge (A B C : ScreenVertex) (s : ℚ)
    (hd : (Triangle.mk A B C).denom ≠ 0) :
    (Triangle.mk A B C).bary ((1 - s) * A.x + s * B.x, (1 - s) * A.y + s * B.y) =
      (1 - s, s, 0) := by
  simp only [Triangle.denom, edgeFn, ScreenVertex.pos] at hd
  simp only [Triangle.bary, Triangle.denom, edgeFn, ScreenVertex.pos, Prod.ext_iff]
  refine ⟨?_, ?_, ?_⟩ <;> field_simp <;> ring

lemma covered_lerp_edge (A B C : ScreenVertex) (s : ℚ)
    (hd : (Triangle.mk A B C).denom ≠ 0) (hs0 : 0 ≤ s) (hs1 : s ≤ 1) :
    (Triangle.mk A B C).covered
      ((1 - s) * A.x + s * B.x, (1 - s) * A.y + s * B.y) = true := by
  have hb := bary_lerp_edge A B C s hd
  simp only [Triangle.covered, hb]
  simp [hd, hs0, sub_nonneg.mpr hs1]

/-- Counterexample for claim C5: pixel (1,1) lies on the diagonal edge shared by
`quadTriA` and `quadTriB` (its edge function there vanishes), yet BOTH
triangles cover it — the pixel is not claimed by exactly one of the two
triangles. -/
theorem shared_edge_pixel_double_claim :
    edgeFn ((2 : ℚ), (0 : ℚ)) ((0 : ℚ), (2 : ℚ)) ((1 : ℚ), (1 : ℚ)) = 0 ∧
    quadTriA.covered (1, 1) = true ∧
    quadTriB.covered (1, 1) = true ∧
    ¬ (quadTriA.covered (1, 1) = true ↔ ¬ quadTriB.covered (1, 1) = true) := by
  have hA : quadTriA.covered (1, 1) = true := by
    norm_num [quadTriA, Triangle.covered, Triangle.bary, Triangle.denom, edgeFn,
      ScreenVertex.pos]
  have hB : quadTriB.covered (1, 1) = true := by
    norm_num [quadTriB, Triangle.covered, Triangle.bary, Triangle.denom, edgeFn,
      ScreenVertex.pos]
  refine ⟨by norm_num [edgeFn], hA, hB, ?_⟩
  intro hiff
  exact (hiff.mp hA) hB

/-- Amended claim C5: for two non-degenerate triangles sharing an edge, every
pixel on the shared edge is covered by BOTH triangles — the non-negative
barycentric coverage rule leaves no gaps along the edge but double-paints
it, since no tie-break rule is applied. -/
theorem shared_edge_pixels_covered_by_both (A B C D : ScreenVertex) (s : ℚ)
    (hs0 : 0 ≤ s) (hs1 : s ≤ 1)
    (hd1 : (Triangle.mk A B C).denom ≠ 0) (hd2 : (Triangle.mk B A D).denom ≠ 0) :
    (Triangle.mk A B C).covered
      ((1 - s) * A.x + s * B.x, (1 - s) * A.y + s * B.y) = true ∧
    (Triangle.mk B A D).covered
      ((1 - s) * A.x + s * B.x, (1 - s) * A.y + s * B.y) = true := by
  refine ⟨covered_lerp_edge A B C s hd1 hs0 hs1, ?_⟩
  have hpt : ((1 - s) * A.x + s * B.x, (1 - s) * A.y + s * B.y) =
      ((1 - (1 - s)) * B.x + (1 - s) * A.x, (1 - (1 - s)) * B.y + (1 - s) * A.y) := by
    simp only [Prod.ext_iff]
    constructor <;> ring
  rw [hpt]
  exact covered_lerp_edge B A D (1 - s) hd2 (by linarith) (by linarith)

/-- Witness for the amended C5: the midpoint of the edge shared by two
concrete triangles is covered by both of them. -/
theorem shared_edge_pixels_covered_by_both_witness :
    (Triangle.mk ⟨0, 0, 1, ⟨0, 0, 0⟩⟩ ⟨2, 0, 1, ⟨0, 0, 0⟩⟩ ⟨0, 2, 1, ⟨0, 0, 0⟩⟩).covered
      ((1 - 1 / 2) * (0 : ℚ) + 1 / 2 * 2, (1 - 1 / 2) * (0 : ℚ) + 1 / 2 * 0) = true ∧
    (Triangle.mk ⟨2, 0, 1, ⟨0, 0, 0⟩⟩ ⟨0, 0, 1, ⟨0, 0, 0⟩⟩ ⟨1, -1, 1, ⟨0, 0, 0⟩⟩).covered
      ((1 - 1 / 2) * (0 : ℚ) + 1 / 2 * 2, (1 - 1 / 2) * (0 : ℚ) + 1 / 2 * 0) = true :=
  shared_edge_pixels_covered_by_both
    ⟨0, 0, 1, ⟨0, 0, 0⟩⟩ ⟨2, 0, 1, ⟨0, 0, 0⟩⟩ ⟨0, 2, 1, ⟨0, 0, 0⟩⟩ ⟨1, -1, 1, ⟨0, 0, 0⟩⟩
    (1 / 2) (by norm_num) (by norm_num)
    (by norm_num [Triangle.denom, edgeFn, ScreenVertex.pos])
    (by norm_num [Triangle.denom, edgeFn, ScreenVertex.pos])

lemma bary_sum (t : Triangle) (p : ℚ × ℚ) (h : t.denom ≠ 0) :
    (t.bary p).1 + (t.bary p).2.1 + (t.bary p).2.2 = 1 := by
  simp only [Triangle.denom, edgeFn, ScreenVertex.pos] at h
  simp only [Triangle.bary, Triangle.denom, edgeFn, ScreenVertex.pos]
  field_simp
  ring

lemma bary_reproduce_x (t : Triangle) (p : ℚ × ℚ) (h : t.denom ≠ 0) :
    (t.bary p).1 * t.v0.x + (t.bary p).2.1 * t.v1.x + (t.bary p).2.2 * t.v2.x = p.1 := by
  simp only [Triangle.denom, edgeFn, ScreenVertex.pos] at h
  simp only [Triangle.bary, Triangle.denom, edgeFn, ScreenVertex.pos]
  field_simp
  ring

lemma bary_reproduce_y (t : Triangle) (p : ℚ × ℚ) (h : t.denom ≠ 0) :
    (t.bary p).1 * t.v0.y + (t.bary p).2.1 * t.v1.y + (t.bary p).2.2 * t.v2.y = p.2 := by
  simp only [Triangle.denom, edgeFn, ScreenVertex.pos] at h
  simp only [Triangle.bary, Triangle.denom, edgeFn, ScreenVertex.pos]
  field_simp
  ring

lemma interpPC_eq_camera_weights (l0 l1 l2 u0 u1 u2 z0 z1 z2 : ℚ) :
    interpPC l0 l1 l2 u0 u1 u2 z0 z1 z2 =
      l0 / z0 / (l0 / z0 + l1 / z1 + l2 / z2) * u0 +
      l1 / z1 / (l0 / z0 + l1 / z1 + l2 / z2) * u1 +
      l2 / z2 / (l0 / z0 + l1 / z1 + l2 / z2) * u2 := by
  rw [interpPC]
  ring

/-- Claim C8: varying interpolation is perspective-correct — at every pixel,
the interpolated u attribute equals the analytically perspective-divided
value: the camera-space weights sum to one, the camera-space point they
define projects exactly onto the pixel, and the rasterizer's
`interpPC`-based varying equals the attribute of the 3D triangle at that
point (exactly, with zero tolerance, in exact arithmetic). -/
theorem varying_interpolation_perspective_correct (t : Triangle) (p : ℚ × ℚ)
    (hden : t.denom ≠ 0) (hz0 : t.v0.z ≠ 0) (hz1 : t.v1.z ≠ 0) (hz2 : t.v2.z ≠ 0)
    (hD : t.rcpDepthSum p ≠ 0) :
    (t.varyAt p).u = t.analyticU p ∧
    (t.cameraBary p).1 + (t.cameraBary p).2.1 + (t.cameraBary p).2.2 = 1 ∧
    (t.cameraPoint p).2.2 ≠ 0 ∧
    (t.cameraPoint p).1 / (t.cameraPoint p).2.2 = p.1 ∧
    (t.cameraPoint p).2.1 / (t.cameraPoint p).2.2 = p.2 := by
  have hsum := bary_sum t p hden
  have hxr := bary_reproduce_x t p hden
  have hyr := bary_reproduce_y t p hden
  set l0 := (t.bary p).1 with hl0
  set l1 := (t.bary p).2.1 with hl1
  set l2 := (t.bary p).2.2 with hl2
  set z0 := t.v0.z with hzz0
  set z1 := t.v1.z with hzz1
  set z2 := t.v2.z with hzz2
  have hDl : l0 / z0 + l1 / z1 + l2 / z2 ≠ 0 := hD
  have hU : (t.varyAt p).u =
      interpPC l0 l1 l2 t.v0.vary.u t.v1.vary.u t.v2.vary.u z0 z1 z2 := rfl
  have hA : t.analyticU p =
      l0 / z0 / (l0 / z0 + l1 / z1 + l2 / z2) * t.v0.vary.u +
      l1 / z1 / (l0 / z0 + l1 / z1 + l2 / z2) * t.v1.vary.u +
      l2 / z2 / (l0 / z0 + l1 / z1 + l2 / z2) * t.v2.vary.u := rfl
  have hcb1 : (t.cameraBary p).1 = l0 / z0 / (l0 / z0 + l1 / z1 + l2 / z2) := rfl
  have hcb2 : (t.cameraBary p).2.1 = l1 / z1 / (l0 / z0 + l1 / z1 + l2 / z2) := rfl
  have hcb3 : (t.cameraBary p).2.2 = l2 / z2 / (l0 / z0 + l1 / z1 + l2 / z2) := rfl
  have hcpz : (t.cameraPoint p).2.2 =
      l0 / z0 / (l0 / z0 + l1 / z1 + l2 / z2) * z0 +
      l1 / z1 / (l0 / z0 + l1 / z1 + l2 / z2) * z1 +
      l2 / z2 / (l0 / z0 + l1 / z1 + l2 / z2) * z2 := rfl
  have hcpx : (t.cameraPoint p).1 =
      l0 / z0 / (l0 / z0 + l1 / z1 + l2 / z2) * (t.v0.x * z0) +
      l1 / z1 / (l0 / z0 + l1 / z1 + l2 / z2) * (t.v1.x * z1) +
      l2 / z2 / (l0 / z0 + l1 / z1 + l2 / z2) * (t.v2.x * z2) := rfl
  have hcpy : (t.cameraPoint p).2.1 =
      l0 / z0 / (l0 / z0 + l1 / z1 + l2 / z2) * (t.v0.y * z0) +
      l1 / z1 / (l0 / z0 + l1 / z1 + l2 / z2) * (t.v1.y * z1) +
      l2 / z2 / (l0 / z0 + l1 / z1 + l2 / z2) * (t.v2.y * z2) := rfl
  have f0 : l0 / z0 / (l0 / z0 + l1 / z1 + l2 / z2) * z0 =
      l0 / (l0 / z0 + l1 / z1 + l2 / z2) := by
    rw [div_div, div_mul_eq_mul_div, mul_comm l0 z0, mul_div_mul_left _ _ hz0]
  have f1 : l1 / z1 / (l0 / z0 + l1 / z1 + l2 / z2) * z1 =
      l1 / (l0 / z0 + l1 / z1 + l2 / z2) := by
    rw [div_div, div_mul_eq_mul_div, mul_comm l1 z1, mul_div_mul_left _ _ hz1]
  have f2 : l2 / z2 / (l0 / z0 + l1 / z1 + l2 / z2) * z2 =
      l2 / (l0 / z0 + l1 / z1 + l2 / z2) := by
    rw [div_div, div_mul_eq_mul_div, mul_comm l2 z2, mul_div_mul_left _ _ hz2]
  have gx0 : l0 / z0 / (l0 / z0 + l1 / z1 + l2 / z2) * (t.v0.x * z0) =
      l0 * t.v0.x / (l0 / z0 + l1 / z1 + l2 / z2) := by
    rw [div_div, div_mul_eq_mul_div]
    have hc : l0 * (t.v0.x * z0) = z0 * (l0 * t.v0.x) := by ring
    rw [hc, mul_div_mul_left _ _ hz0]
  have gx1 : l1 / z1 / (l0 / z0 + l1 / z1 + l2 / z2) * (t.v1.x * z1) =
      l1 * t.v1.x / (l0 / z0 + l1 / z1 + l2 / z2) := by
    rw [div_div, div_mul_eq_mul_div]
    have hc : l1 * (t.v1.x * z1) = z1 * (l1 * t.v1.x) := by ring
    rw [hc, mul_div_mul_left _ _ hz1]
  have gx2 : l2 / z2 / (l0 / z0 + l1 / z1 + l2 / z2) * (t.v2.x * z2) =
      l2 * t.v2.x / (l0 / z0 + l1 / z1 + l2 / z2) := by
    rw [div_div, div_mul_eq_mul_div]
    have hc : l2 * (t.v2.x * z2) = z2 * (l2 * t.v2.x) := by ring
    rw [hc, mul_div_mul_left _ _ hz2]
  have gy0 : l0 / z0 / (l0 / z0 + l1 / z1 + l2 / z2) * (t.v0.y * z0) =
      l0 * t.v0.y / (l0 / z0 + l1 / z1 + l2 / z2) := by
    rw [div_div, div_mul_eq_mul_div]
    have hc : l0 * (t.v0.y * z0) = z0 * (l0 * t.v0.y) := by ring
    rw [hc, mul_div_mul_left _ _ hz0]
  have gy1 : l1 / z1 / (l0 / z0 + l1 / z1 + l2 / z2) * (t.v1.y * z1) =
      l1 * t.v1.y / (l0 / z0 + l1 / z1 + l2 / z2) := by
    rw [div_div, div_mul_eq_mul_div]
    have hc : l1 * (t.v1.y * z1) = z1 * (l1 * t.v1.y) := by ring
    rw [hc, mul_div_mul_left _ _ hz1]
  have gy2 : l2 / z2 / (l0 / z0 + l1 / z1 + l2 / z2) * (t.v2.y * z2) =
      l2 * t.v2.y / (l0 / z0 + l1 / z1 + l2 / z2) := by
    rw [div_div, div_mul_eq_mul_div]
    have hc : l2 * (t.v2.y * z2) = z2 * (l2 * t.v2.y) := by ring
    rw [hc, mul_div_mul_left _ _ hz2]
  have hzval : (t.cameraPoint p).2.2 = 1 / (l0 / z0 + l1 / z1 + l2 / z2) := by
    rw [hcpz, f0, f1, f2, div_add_div_same, div_add_div_same, hsum]
  have hxval : (t.cameraPoint p).1 =
      (l0 * t.v0.x + l1 * t.v1.x + l2 * t.v2.x) / (l0 / z0 + l1 / z1 + l2 / z2) := by
    rw [hcpx, gx0, gx1, gx2, div_add_div_same, div_add_div_same]
  have hyval : (t.cameraPoint p).2.1 =
      (l0 * t.v0.y + l1 * t.v1.y + l2 * t.v2.y) / (l0 / z0 + l1 / z1 + l2 / z2) := by
    rw [hcpy, gy0, gy1, gy2, div_add_div_same, div_add_div_same]
  refine ⟨?_, ?_, ?_, ?_, ?_⟩
  · rw [hU, hA]
    exact interpPC_eq_camera_weights l0 l1 l2 _ _ _ z0 z1 z2
  · rw [hcb1, hcb2, hcb3, div_add_div_same, div_add_div_same, div_self hDl]
  · rw [hzval]
    exact one_div_ne_zero hDl
  · rw [hxval, hzval, hxr, div_div_eq_mul_div, div_one]
    exact div_mul_cancel₀ _ hDl
  · rw [hyval, hzval, hyr, div_div_eq_mul_div, div_one]
    exact div_mul_cancel₀ _ hDl

/-- Witness for C8: a concrete foreshortened triangle (depths 1, 2, 4) —
the rasterizer's interpolated u at pixel (1,1) equals the analytic
perspective-divided value and the camera point projects back onto the
pixel. -/
theorem varying_interpolation_perspective_correct_witness :
    (Triangle.varyAt
        ⟨⟨0, 0, 1, ⟨0, 0, 0⟩⟩, ⟨4, 0, 2, ⟨1, 0, 0⟩⟩, ⟨0, 4, 4, ⟨0, 1, 0⟩⟩⟩ (1, 1)).u =
      Triangle.analyticU
        ⟨⟨0, 0, 1, ⟨0, 0, 0⟩⟩, ⟨4, 0, 2, ⟨1, 0, 0⟩⟩, ⟨0, 4, 4, ⟨0, 1, 0⟩⟩⟩ (1, 1) ∧
    (Triangle.cameraBary
        ⟨⟨0, 0, 1, ⟨0, 0, 0⟩⟩, ⟨4, 0, 2, ⟨1, 0, 0⟩⟩, ⟨0, 4, 4, ⟨0, 1, 0⟩⟩⟩ (1, 1)).1 +
      (Triangle.cameraBary
        ⟨⟨0, 0, 1, ⟨0, 0, 0⟩⟩, ⟨4, 0, 2, ⟨1, 0, 0⟩⟩, ⟨0, 4, 4, ⟨0, 1, 0⟩⟩⟩ (1, 1)).2.1 +
      (Triangle.cameraBary
        ⟨⟨0, 0, 1, ⟨0, 0, 0⟩⟩, ⟨4, 0, 2, ⟨1, 0, 0⟩⟩, ⟨0, 4, 4, ⟨0, 1, 0⟩⟩⟩ (1, 1)).2.2 = 1 ∧
    (Triangle.cameraPoint
        ⟨⟨0, 0, 1, ⟨0, 0, 0⟩⟩, ⟨4, 0, 2, ⟨1, 0, 0⟩⟩, ⟨0, 4, 4, ⟨0, 1, 0⟩⟩⟩ (1, 1)).2.2 ≠ 0 ∧
    (Triangle.cameraPoint
        ⟨⟨0, 0, 1, ⟨0, 0, 0⟩⟩, ⟨4, 0, 2, ⟨1, 0, 0⟩⟩, ⟨0, 4, 4, ⟨0, 1, 0⟩⟩⟩ (1, 1)).1 /
      (Triangle.cameraPoint
        ⟨⟨0, 0, 1, ⟨0, 0, 0⟩⟩, ⟨4, 0, 2, ⟨1, 0, 0⟩⟩, ⟨0, 4, 4, ⟨0, 1, 0⟩⟩⟩ (1, 1)).2.2 =
      (1 : ℚ) ∧
    (Triangle.cameraPoint
        ⟨⟨0, 0, 1, ⟨0, 0, 0⟩⟩, ⟨4, 0, 2, ⟨1, 0, 0⟩⟩, ⟨0, 4, 4, ⟨0, 1, 0⟩⟩⟩ (1, 1)).2.1 /
      (Triangle.cameraPoint
        ⟨⟨0, 0, 1, ⟨0, 0, 0⟩⟩, ⟨4, 0, 2, ⟨1, 0, 0⟩⟩, ⟨0, 4, 4, ⟨0, 1, 0⟩⟩⟩ (1, 1)).2.2 =
      (1 : ℚ) :=
  varying_interpolation_perspective_correct
    ⟨⟨0, 0, 1, ⟨0, 0, 0⟩⟩, ⟨4, 0, 2, ⟨1, 0, 0⟩⟩, ⟨0, 4, 4, ⟨0, 1, 0⟩⟩⟩ (1, 1)
    (by norm_num [Triangle.denom, edgeFn, ScreenVertex.pos])
    (by norm_num) (by norm_num) (by norm_num)
    (by norm_num [Triangle.rcpDepthSum, Triangle.bary, Triangle.denom, edgeFn,
      ScreenVertex.pos])

end TinyRenderer
